import Mathlib

/-!
Shallow embedding of the `ewhal/model` query layer (src/src/query.js and
src/src/model.js) together with theorems checking the natural-language
specification against it.

JavaScript runtime values are modelled by the inductive `JsVal`; mutation of
a builder or a model instance is modelled by explicit state passing (each
method returns the updated state); a JavaScript `throw` is modelled by
`Except.error`.  The `_Model` and `_db` fields of `DbQuery` are opaque
references to the bound entity type and plug; they are never inspected by
the query-builder code itself, so the embedding keeps only the mutable
operation list `pts`. A terminal action is modelled as returning the
untouched builder state together with the `DbAction` describing the call it
hands to the plug (which backend function, with which operation list).
-/

set_option autoImplicit false

/-- A JavaScript runtime value, as far as the query/model layer inspects
them: `undefined`, `null`, booleans, numbers (the `nan` case keeps `NaN`
separate from ordinary numbers, which the claims only need as integers),
strings, arrays and plain objects (association lists of fields in insertion
order). -/
inductive JsVal where
  | undefined
  | null
  | bool (b : Bool)
  | num (n : Int)
  | nan
  | str (s : String)
  | arr (elems : List JsVal)
  | obj (fields : List (String × JsVal))

/-- JavaScript `v == null` (loose equality): true exactly for `null` and
`undefined`. -/
def isNullish : JsVal → Bool
  | .null => true
  | .undefined => true
  | _ => false

/-- JavaScript `v instanceof Object`: true for arrays and plain objects,
false for primitives (`undefined`, `null`, booleans, numbers, strings). -/
def isJsObject : JsVal → Bool
  | .obj _ => true
  | .arr _ => true
  | _ => false

/-- JavaScript `v.toString ()` for the values the builder can receive as a
sort direction.  `null.toString ()` and `undefined.toString ()` throw a
TypeError, modelled by `none`.  Array `toString` (comma-join of elements)
is also mapped to `none`; no claim and no call site in the repository
passes an array here, and the sort code treats every unparseable string
the same way (throws before pushing). -/
def jsToString : JsVal → Option String
  | .str s => some s
  | .num n => some (toString n)
  | .nan => some "NaN"
  | .bool b => some (if b then "true" else "false")
  | .obj _ => some "[object Object]"
  | .null => none
  | .undefined => none
  | .arr _ => none

/-- JavaScript `a + b` restricted to the value shapes `increment` can meet:
number plus number adds, `NaN`/`undefined` contaminate to `NaN`
(`undefined + 1` is `NaN` in JavaScript), `null` coerces to `0`, booleans
coerce to `0`/`1`, and a string left operand concatenates the decimal
rendering of a number.  Arrays/objects fall back to `NaN`; no claim
reaches those string-coercion corners. -/
def jsAdd : JsVal → JsVal → JsVal
  | .num a, .num b => .num (a + b)
  | .null, .num b => .num b
  | .num a, .null => .num a
  | .bool a, .num b => .num ((if a then 1 else 0) + b)
  | .num a, .bool b => .num (a + (if b then 1 else 0))
  | .str s, .num b => .str (s ++ toString b)
  | _, _ => .nan

/-- JavaScript `a - b` on the same shapes (`-` never concatenates; strings
and containers give `NaN`, `undefined - 1` is `NaN`). -/
def jsSub : JsVal → JsVal → JsVal
  | .num a, .num b => .num (a - b)
  | .null, .num b => .num (0 - b)
  | .num a, .null => .num a
  | .bool a, .num b => .num ((if a then 1 else 0) - b)
  | .num a, .bool b => .num (a - (if b then 1 else 0))
  | _, _ => .nan

/-- First field of an object's field list with the given name (JavaScript
property lookup on the plain objects built here). -/
def lookupField : List (String × JsVal) → String → Option JsVal
  | [], _ => none
  | (k, v) :: rest, key => if k = key then some v else lookupField rest key

/-- JavaScript property assignment `obj[k] = v` on an association-list
object: overwrite the first binding of `k` in place, or append a new
binding at the end (insertion order preserved). -/
def updateField : List (String × JsVal) → String → JsVal → List (String × JsVal)
  | [], key, v => [(key, v)]
  | (k, w) :: rest, key, v =>
    if k = key then (key, v) :: rest else (k, w) :: updateField rest key v

/-- Helper for `splitPath`: split the remaining characters at every `'.'`,
accumulating the current segment in reverse. -/
def splitPathAux : List Char → List Char → List String
  | [], acc => [String.mk acc.reverse]
  | c :: cs, acc =>
    if c = '.' then String.mk acc.reverse :: splitPathAux cs []
    else splitPathAux cs (c :: acc)

/-- JavaScript `path.split ('.')`, the path segmentation `dot-prop` applies
to its key argument (always returns at least one segment; the empty string
splits to `[""]`). -/
def splitPath (s : String) : List String := splitPathAux s.toList []

/-- `DotProp.get` over the segments of an already-split dot-path: walk the
objects; a missing field or a non-object in the middle of the path yields
`undefined`. -/
def dotGetSegs : List (String × JsVal) → List String → JsVal
  | _, [] => .undefined
  | fs, [k] => (lookupField fs k).getD .undefined
  | fs, k :: k2 :: ks =>
    match lookupField fs k with
    | some (.obj cfs) => dotGetSegs cfs (k2 :: ks)
    | _ => .undefined

/-- `DotProp.set` over the segments of an already-split dot-path: a
non-object (or missing) intermediate is replaced by a fresh empty object,
and the final segment is assigned unconditionally. -/
def dotSetSegs : List (String × JsVal) → List String → JsVal → List (String × JsVal)
  | fs, [], _ => fs
  | fs, [k], v => updateField fs k v
  | fs, k :: k2 :: ks, v =>
    let childFs : List (String × JsVal) :=
      match lookupField fs k with
      | some (.obj cfs) => cfs
      | _ => []
    updateField fs k (.obj (dotSetSegs childFs (k2 :: ks) v))

/-- `DotProp.get (data, key)` with a dot-separated string key. -/
def dotGet (fs : List (String × JsVal)) (key : String) : JsVal :=
  dotGetSegs fs (splitPath key)

/-- `DotProp.set (data, key, value)` with a dot-separated string key. -/
def dotSet (fs : List (String × JsVal)) (key : String) (v : JsVal) :
    List (String × JsVal) :=
  dotSetSegs fs (splitPath key) v

/-- One IR node of the query builder, mirroring the objects pushed onto
`this.pts` in src/src/query.js (the `type` tag becomes the constructor,
the remaining fields become arguments).  The `lte` case is the node shape
the `lte` methods are documented to build; the code never actually
constructs it (see `DbQuery.lte` below). -/
inductive QueryPart where
  | limit (limitAmount : JsVal)
  | skip (skipAmount : JsVal)
  | sort (sortKey : JsVal) (desc : Bool)
  | filter (filter : JsVal)
  | whereEquals (prop : JsVal) (value : JsVal)
  | gt (key : JsVal) (min : JsVal)
  | lt (key : JsVal) (max : JsVal)
  | gte (key : JsVal) (min : JsVal)
  | lte (key : JsVal) (max : JsVal)

/-- Errors the builder and model methods can throw. -/
inductive QueryErr where
  /-- `throw new Error ("Invalid sort value")` in `DbQuery.sort`. -/
  | invalidSortValue
  /-- Strict-mode ReferenceError from evaluating an undeclared variable. -/
  | referenceError
  /-- TypeError from calling a value that is not a function, or from
  `null.toString ()`. -/
  | typeError

/-- The query-builder state: the mutable operation list `this.pts`.  The
`_Model` and `_db` reference fields are opaque and unused by the builder's
own logic, so they are not carried. -/
structure DbQuery where
  pts : List QueryPart

/-- What a terminal action hands to the bound plug (`this._db`): which db
function is invoked and the operation list of the builder passed along. -/
inductive DbAction where
  | findModels (pts : List QueryPart)
  | findModel (pts : List QueryPart)
  | countModels (pts : List QueryPart)
  | removeModels (pts : List QueryPart)

namespace DbQuery

/-- `limit (amt)`: push a `limit` part and return self. -/
def limit (q : DbQuery) (amt : JsVal) : DbQuery :=
  { q with pts := q.pts ++ [.limit amt] }

/-- `skip (amt)`: push a `skip` part and return self. -/
def skip (q : DbQuery) (amt : JsVal) : DbQuery :=
  { q with pts := q.pts ++ [.skip amt] }

/-- `sort (key, directionStr = "desc")`.  A caller-omitted (or
`undefined`) direction takes the default `"desc"`; the argument is then
converted with `toString ()` and compared against the literal strings
`"1" / "asc" / "ascending"` and `"-1" / "desc" / "descending"` (exact,
case-sensitive comparisons in the source); anything else throws before a
part is pushed. -/
def sort (q : DbQuery) (key directionArg : JsVal) : Except QueryErr DbQuery :=
  let dArg := match directionArg with
    | .undefined => JsVal.str "desc"
    | v => v
  match jsToString dArg with
  | none => .error .typeError
  | some directionStr =>
    if directionStr = "1" ∨ directionStr = "asc" ∨ directionStr = "ascending" then
      .ok { q with pts := q.pts ++ [.sort key false] }
    else if directionStr = "-1" ∨ directionStr = "desc" ∨ directionStr = "descending" then
      .ok { q with pts := q.pts ++ [.sort key true] }
    else
      .error .invalidSortValue

/-- `sort (key)` with the direction argument omitted. -/
def sortDefault (q : DbQuery) (key : JsVal) : Except QueryErr DbQuery :=
  q.sort key .undefined

/-- `where (key, value = null)`: an `Object` key together with a nullish
value pushes a `filter` part; every other combination (including an
`Object` key with a non-null value) pushes a `whereEquals` part.  The
source performs no further validation. -/
def where_ (q : DbQuery) (key value : JsVal) : DbQuery :=
  if isJsObject key ∧ isNullish value then
    { q with pts := q.pts ++ [.filter key] }
  else
    { q with pts := q.pts ++ [.whereEquals key value] }

/-- `gt (key, min)`: push a `gt` part and return self. -/
def gt (q : DbQuery) (key min : JsVal) : DbQuery :=
  { q with pts := q.pts ++ [.gt key min] }

/-- `lt (key, max)`: push a `lt` part and return self. -/
def lt (q : DbQuery) (key max : JsVal) : DbQuery :=
  { q with pts := q.pts ++ [.lt key max] }

/-- `gte (key, min)`: push a `gte` part and return self. -/
def gte (q : DbQuery) (key min : JsVal) : DbQuery :=
  { q with pts := q.pts ++ [.gte key min] }

/-- `lte (key, min)`: the body is
`this.pts.push ({ type: "lte", max: max, key: key })`, but the parameter
is named `min` and no variable `max` is in scope anywhere in the file, so
under `"use strict"` evaluating the object literal throws a ReferenceError
before anything is pushed.  Every call therefore fails and mutates
nothing. -/
def lte (_q : DbQuery) (_key _bound : JsVal) : Except QueryErr DbQuery :=
  .error .referenceError

/-- The JavaScript object a chain call was made on survives a throw
unchanged; this wrapper gives the post-call state of the builder whether
`sort` succeeded or threw. -/
def applySort (q : DbQuery) (key directionArg : JsVal) : DbQuery :=
  match q.sort key directionArg with
  | .ok q' => q'
  | .error _ => q

/-- Post-call builder state for `lte`, whether it succeeded or threw. -/
def applyLte (q : DbQuery) (key bound : JsVal) : DbQuery :=
  match q.lte key bound with
  | .ok q' => q'
  | .error _ => q

/-- `find ()`: hand `(this._Model, this)` to `this._db.findModels`; the
builder is untouched. -/
def find (q : DbQuery) : DbQuery × DbAction :=
  (q, .findModels q.pts)

/-- `findOne ()`: hand `(this._Model, this)` to `this._db.findModel`. -/
def findOne (q : DbQuery) : DbQuery × DbAction :=
  (q, .findModel q.pts)

/-- `count ()`: hand `(this._Model, this)` to `this._db.countModels`. -/
def count (q : DbQuery) : DbQuery × DbAction :=
  (q, .countModels q.pts)

/-- `remove ()`: hand `(this._Model, this)` to `this._db.removeModels`. -/
def remove (q : DbQuery) : DbQuery × DbAction :=
  (q, .removeModels q.pts)

end DbQuery

/-- The names of the methods the `DbQuery` class body defines, transcribed
from src/src/query.js.  Calling any other property of a builder instance
as a function throws a TypeError in JavaScript. -/
def DbQueryMethodNames : List String :=
  ["constructor", "limit", "skip", "sort", "where",
   "gt", "lt", "gte", "lte", "find", "findOne", "count", "remove"]

/-- The names of the static methods and accessors the `DbModel` class body
defines, transcribed from src/src/model.js.  Calling any other static
property as a function throws a TypeError. -/
def DbModelStaticNames : List String :=
  ["raw", "__query", "findById", "find", "findOne", "count", "sum",
   "remove", "limit", "skip", "sort", "where", "gt", "lt", "gte", "lte"]

/-- An entity-wrapper instance (src/src/model.js): the internal data object
`this.__data` (field list of a plain JS object) and the internal identity
`this.__id` (`JsVal.null` until first save). -/
structure DbModel where
  data : List (String × JsVal)
  id : JsVal

/-- Errors `DbModel` instance methods can throw. -/
inductive ModelErr where
  /-- `throw new Error ('Model not stored in database')`. -/
  | notStoredInDatabase

namespace DbModel

/-- `get (key = '')`: an empty key returns `Object.assign ({}, this.__data)`
(a shallow copy, equal to the data object as a value); the exact key
`"_id"` returns the internal identity; any other key goes through
`DotProp.get` on the data. -/
def get (m : DbModel) (key : String) : JsVal :=
  if key.length = 0 then .obj m.data
  else if key = "_id" then m.id
  else dotGet m.data key

/-- `increment (key, amt = 1)`: read the current value at `key` with
`DotProp.get`, write back `currValue + amt` with `DotProp.set`.  Neither
`DotProp` call nor JavaScript `+` throws here, so the method always
succeeds (no `Except`). -/
def increment (m : DbModel) (key : String) (amt : JsVal) : DbModel :=
  let currValue := dotGet m.data key
  { m with data := dotSet m.data key (jsAdd currValue amt) }

/-- `decrement (key, amt = 1)`: like `increment` with `currValue - amt`. -/
def decrement (m : DbModel) (key : String) (amt : JsVal) : DbModel :=
  let currValue := dotGet m.data key
  { m with data := dotSet m.data key (jsSub currValue amt) }

/-- `remove ()`: throws if `this.__id == null`; otherwise it first sets
`this.__id = null` and only then calls
`this.constructor.__db.removeById (this.constructor, this.__id)` — so the
identity the backend receives is the already-nulled one.  The result pairs
the post-call model state with the id value passed to `removeById`. -/
def remove (m : DbModel) : Except ModelErr (DbModel × JsVal) :=
  if isNullish m.id then
    .error .notStoredInDatabase
  else
    let m' := { m with id := JsVal.null }
    .ok (m', m'.id)

end DbModel

/-- `static __query ()`: a fresh builder (`new DbQuery (this, this.__db)`)
with an empty operation list. -/
def DbModel.__query : DbQuery := ⟨[]⟩

/-- `static lte (key, max)`: the body is
`return this.__query ().gt (key, max)` — it delegates to `gt`, not `lte`,
so the builder it returns holds a single `gt` node. -/
def DbModel.lte (key max : JsVal) : DbQuery :=
  DbModel.__query.gt key max

/-- `static gt (key, min)`: `return this.__query ().gt (key, min)`. -/
def DbModel.gt (key min : JsVal) : DbQuery :=
  DbModel.__query.gt key min

/-- A path always splits into at least one segment. -/
theorem splitPathAux_ne_nil : ∀ (cs acc : List Char), splitPathAux cs acc ≠ [] := by
  intro cs
  induction cs with
  | nil => intro acc; simp [splitPathAux]
  | cons c cs ih =>
      intro acc
      by_cases hc : c = '.' <;> simp [splitPathAux, hc, ih]

/-- `splitPath` never yields the empty segment list. -/
theorem splitPath_ne_nil (s : String) : splitPath s ≠ [] :=
  splitPathAux_ne_nil s.toList []

/-- Looking a key up right after assigning it yields the assigned value. -/
theorem lookupField_updateField (fs : List (String × JsVal)) (key : String) (v : JsVal) :
    lookupField (updateField fs key v) key = some v := by
  induction fs with
  | nil => simp [updateField, lookupField]
  | cons p rest ih =>
      obtain ⟨k, w⟩ := p
      by_cases hk : k = key <;> simp [updateField, lookupField, hk, ih]

/-- Reading a dot-path right after writing it yields the written value
(for a non-empty segment list, which `splitPath` always produces). -/
theorem dotGetSegs_dotSetSegs (v : JsVal) :
    ∀ (segs : List String) (fs : List (String × JsVal)), segs ≠ [] →
      dotGetSegs (dotSetSegs fs segs v) segs = v := by
  intro segs
  induction segs with
  | nil => intro fs h; exact absurd rfl h
  | cons k ks ih =>
      intro fs _
      cases ks with
      | nil => simp [dotSetSegs, dotGetSegs, lookupField_updateField]
      | cons k2 ks' =>
          simp only [dotSetSegs, dotGetSegs, lookupField_updateField]
          exact ih _ (by simp)

/-- String-keyed form of the write/read round trip. -/
theorem dotGet_dotSet (fs : List (String × JsVal)) (key : String) (v : JsVal) :
    dotGet (dotSet fs key v) key = v :=
  dotGetSegs_dotSetSegs v (splitPath key) fs (splitPath_ne_nil key)

/-- One chain-method invocation on a builder, with its arguments. -/
inductive ChainCall where
  | limit (amt : JsVal)
  | skip (amt : JsVal)
  | sort (key direction : JsVal)
  | where_ (key value : JsVal)
  | gt (key min : JsVal)
  | lt (key max : JsVal)
  | gte (key min : JsVal)
  | lte (key bound : JsVal)

/-- Dispatch one chain call to the corresponding `DbQuery` method. -/
def chainStep (q : DbQuery) : ChainCall → Except QueryErr DbQuery
  | .limit a => .ok (q.limit a)
  | .skip a => .ok (q.skip a)
  | .sort k d => q.sort k d
  | .where_ k v => .ok (q.where_ k v)
  | .gt k m => .ok (q.gt k m)
  | .lt k m => .ok (q.lt k m)
  | .gte k m => .ok (q.gte k m)
  | .lte k b => q.lte k b

/-- C1: the claim says `DbQuery.lte (key, bound)` appends one `lte` node
carrying the key and the bound as its `max`, and that the static
`DbModel.lte` builds a builder whose single node is an `lte` node.  The
code does neither: the builder method's body references the undeclared
variable `max` (its parameter is named `min`) and therefore throws a
ReferenceError on every call without pushing anything, and the static
method delegates to `gt`, so the builder it returns holds a single `gt`
node.  The repository's own `testLte` expects `lte` semantics
(`{a: 100}` must match `lte ('a', 100)`), which a `gt` node excludes. -/
theorem c1_lte_reference_error_and_static_lte_builds_gt :
    (∀ (q : DbQuery) (key bound : JsVal),
        q.lte key bound = Except.error QueryErr.referenceError) ∧
    (∀ (key bound : JsVal),
        DbModel.lte key bound = ⟨[QueryPart.gt key bound]⟩) ∧
    (∀ (q : DbQuery) (key bound : JsVal), q.applyLte key bound = q) :=
  ⟨fun _ _ _ => rfl, fun _ _ => rfl, fun _ _ _ => rfl⟩

/-- C2: the claim says the query builder exposes chainable `ne`, `nin`,
`match`, `elem`, `or` and `and` methods.  Neither the `DbQuery` class nor
the `DbModel` statics define any of them, so every such call in the
repository's test file (`Model.ne (...)`, `Model.nin (...)`, ...) throws a
TypeError instead of appending a node. -/
theorem c2_combinator_methods_missing :
    "ne" ∉ DbQueryMethodNames ∧ "nin" ∉ DbQueryMethodNames ∧
    "match" ∉ DbQueryMethodNames ∧ "elem" ∉ DbQueryMethodNames ∧
    "or" ∉ DbQueryMethodNames ∧ "and" ∉ DbQueryMethodNames ∧
    "ne" ∉ DbModelStaticNames ∧ "nin" ∉ DbModelStaticNames ∧
    "match" ∉ DbModelStaticNames ∧ "elem" ∉ DbModelStaticNames ∧
    "or" ∉ DbModelStaticNames ∧ "and" ∉ DbModelStaticNames := by
  decide

/-- C3: the claim says `remove ()` hands the backend the entity's pre-call
identity.  The code nulls `this.__id` first and passes `this.__id`
afterwards, so the backend's `removeById` always receives `null`: for an
entity saved under id `5`, the call succeeds, the id is nulled, but the
identity handed to the backend is `null`, not `5`.  The never-saved branch
(`__id` loosely equal to `null`) does throw before any backend call, as
claimed. -/
theorem c3_remove_passes_nulled_id_to_backend :
    (∀ fs, DbModel.remove ⟨fs, JsVal.num 5⟩ =
        Except.ok (⟨fs, JsVal.null⟩, JsVal.null)) ∧
    (∀ fs, DbModel.remove ⟨fs, JsVal.null⟩ =
        Except.error ModelErr.notStoredInDatabase) ∧
    (∀ fs, DbModel.remove ⟨fs, JsVal.undefined⟩ =
        Except.error ModelErr.notStoredInDatabase) :=
  ⟨fun _ => rfl, fun _ => rfl, fun _ => rfl⟩

/-- C4: the claim says the builder has a terminal `sum (key)` handing the
entity type, operation list and key to the plug.  The `DbQuery` class
defines no `sum` method at all, so `query.sum ('val')` (as the repository's
test file calls it) throws a TypeError; the static `DbModel.sum` exists
but delegates to the missing builder method (`.sum ()`, also dropping the
key), so it throws too. -/
theorem c4_sum_terminal_missing_on_builder :
    "sum" ∉ DbQueryMethodNames ∧ "sum" ∈ DbModelStaticNames := by
  decide

/-- C7: each terminal action (`find`, `findOne`, `count`, `remove`) leaves
the builder's operation list untouched and hands the plug the same
operation list on a repeated invocation. -/
theorem c7_terminals_preserve_operation_list (q : DbQuery) :
    (q.find.1 = q ∧ q.findOne.1 = q ∧ q.count.1 = q ∧ q.remove.1 = q) ∧
    (q.find.1.find.2 = q.find.2 ∧ q.findOne.1.findOne.2 = q.findOne.2 ∧
     q.count.1.count.2 = q.count.2 ∧ q.remove.1.remove.2 = q.remove.2) :=
  ⟨⟨rfl, rfl, rfl, rfl⟩, rfl, rfl, rfl, rfl⟩

/-- C10: `get ("_id")` returns the identity even when the data object has
a top-level `"_id"` field (the identity check precedes the `DotProp`
lookup, so that data field cannot be reached through `get ("_id")`), while
`get ("")` returns the full data object, the shadowed `"_id"` field
included. -/
theorem c10_get_id_shadows_data_field (fs : List (String × JsVal)) (i v : JsVal) :
    (DbModel.mk (("_id", v) :: fs) i).get "_id" = i ∧
    (DbModel.mk (("_id", v) :: fs) i).get "" = JsVal.obj (("_id", v) :: fs) := by
  constructor <;> rfl

/-- C8: the operation list is append-only: every successful chain call
leaves the previous nodes unchanged as a prefix and adds at most one node
at the end (in-place mutation of the one builder instance is modelled by
the step returning the updated state). -/
theorem c8_chain_calls_append_only (q : DbQuery) (c : ChainCall) (q' : DbQuery)
    (h : chainStep q c = Except.ok q') :
    ∃ t, q'.pts = q.pts ++ t ∧ t.length ≤ 1 := by
  cases c with
  | limit a =>
      simp only [chainStep, Except.ok.injEq] at h
      exact ⟨[QueryPart.limit a], by simp [← h, DbQuery.limit], by simp⟩
  | skip a =>
      simp only [chainStep, Except.ok.injEq] at h
      exact ⟨[QueryPart.skip a], by simp [← h, DbQuery.skip], by simp⟩
  | sort k d =>
      simp only [chainStep, DbQuery.sort] at h
      split at h
      · exact absurd h (by simp)
      · split at h
        · simp only [Except.ok.injEq] at h
          exact ⟨[QueryPart.sort k false], by simp [← h], by simp⟩
        · split at h
          · simp only [Except.ok.injEq] at h
            exact ⟨[QueryPart.sort k true], by simp [← h], by simp⟩
          · exact absurd h (by simp)
  | where_ k v =>
      simp only [chainStep, Except.ok.injEq, DbQuery.where_] at h
      split at h
      · exact ⟨[QueryPart.filter k], by simp [← h], by simp⟩
      · exact ⟨[QueryPart.whereEquals k v], by simp [← h], by simp⟩
  | gt k m =>
      simp only [chainStep, Except.ok.injEq] at h
      exact ⟨[QueryPart.gt k m], by simp [← h, DbQuery.gt], by simp⟩
  | lt k m =>
      simp only [chainStep, Except.ok.injEq] at h
      exact ⟨[QueryPart.lt k m], by simp [← h, DbQuery.lt], by simp⟩
  | gte k m =>
      simp only [chainStep, Except.ok.injEq] at h
      exact ⟨[QueryPart.gte k m], by simp [← h, DbQuery.gte], by simp⟩
  | lte k b =>
      exact absurd h (by simp [chainStep, DbQuery.lte])

/-- Witness for C8 at a concrete call: `limit (null)` on a fresh builder. -/
theorem c8_chain_calls_append_only_witness :
    ∃ t, (DbQuery.mk [QueryPart.limit JsVal.null]).pts =
        (DbQuery.mk []).pts ++ t ∧ t.length ≤ 1 :=
  c8_chain_calls_append_only ⟨[]⟩ (ChainCall.limit JsVal.null)
    ⟨[QueryPart.limit JsVal.null]⟩ rfl

/-- C9: `increment (key)` / `decrement (key)` on a model whose data holds
no value at `key` throws nothing (the methods are total) and silently
stores `NaN` — the result of JavaScript `undefined + 1` / `undefined - 1`
— at that key. -/
theorem c9_increment_missing_field_stores_nan (m : DbModel) (key : String)
    (h : dotGet m.data key = JsVal.undefined) :
    dotGet (m.increment key (JsVal.num 1)).data key = JsVal.nan ∧
    dotGet (m.decrement key (JsVal.num 1)).data key = JsVal.nan := by
  constructor <;>
    simp [DbModel.increment, DbModel.decrement, h, jsAdd, jsSub, dotGet_dotSet]

/-- Witness for C9: incrementing and decrementing the absent key `"a"` of
an empty model stores `NaN`. -/
theorem c9_increment_missing_field_stores_nan_witness :
    dotGet ((DbModel.mk [] JsVal.null).increment "a" (JsVal.num 1)).data "a" =
        JsVal.nan ∧
    dotGet ((DbModel.mk [] JsVal.null).decrement "a" (JsVal.num 1)).data "a" =
        JsVal.nan :=
  c9_increment_missing_field_stores_nan ⟨[], JsVal.null⟩ "a" rfl

/-- C5 counterexample: the claim says direction values are accepted
case-insensitively, so `sort ("a", "ASC")` would append an ascending sort
node; the code compares the stringified direction against the exact
lowercase literals and instead throws the invalid-sort error. -/
theorem c5_counterexample_uppercase_asc_rejected :
    DbQuery.sort ⟨[]⟩ (JsVal.str "a") (JsVal.str "ASC") =
      Except.error QueryErr.invalidSortValue := rfl

/-- C5 (amended): `sort` matches the stringified direction argument
case-sensitively: exactly `"1"`, `"asc"`, `"ascending"` give an ascending
node, exactly `"-1"`, `"desc"`, `"descending"` give a descending node, an
omitted direction defaults to descending, and any other stringifiable
value throws the invalid-sort error, appending nothing. -/
theorem c5_sort_directions_case_sensitive (q : DbQuery) (key v : JsVal) (s : String)
    (hv : v ≠ JsVal.undefined) (hs : jsToString v = some s) :
    (s = "1" ∨ s = "asc" ∨ s = "ascending" →
        q.sort key v = Except.ok ⟨q.pts ++ [QueryPart.sort key false]⟩) ∧
    (s = "-1" ∨ s = "desc" ∨ s = "descending" →
        q.sort key v = Except.ok ⟨q.pts ++ [QueryPart.sort key true]⟩) ∧
    (¬(s = "1" ∨ s = "asc" ∨ s = "ascending") →
     ¬(s = "-1" ∨ s = "desc" ∨ s = "descending") →
        q.sort key v = Except.error QueryErr.invalidSortValue ∧
        q.applySort key v = q) ∧
    q.sortDefault key = Except.ok ⟨q.pts ++ [QueryPart.sort key true]⟩ := by
  have hd : (match v with | JsVal.undefined => JsVal.str "desc" | w => w) = v := by
    cases v <;> first | exact absurd rfl hv | rfl
  refine ⟨?_, ?_, ?_, rfl⟩
  · intro h1
    simp only [DbQuery.sort, hd, hs]
    rw [if_pos h1]
  · intro h2
    have hna : ¬(s = "1" ∨ s = "asc" ∨ s = "ascending") := by
      rcases h2 with h | h | h <;> subst h <;> decide
    simp only [DbQuery.sort, hd, hs]
    rw [if_neg hna, if_pos h2]
  · intro h1 h2
    have he : q.sort key v = Except.error QueryErr.invalidSortValue := by
      simp only [DbQuery.sort, hd, hs]
      rw [if_neg h1, if_neg h2]
    exact ⟨he, by simp only [DbQuery.applySort, he]⟩

/-- Witness for C5 at concrete inputs: `sort ("k", "asc")` on a fresh
builder appends one ascending node. -/
theorem c5_sort_directions_case_sensitive_witness :
    DbQuery.sort ⟨[]⟩ (JsVal.str "k") (JsVal.str "asc") =
      Except.ok ⟨[QueryPart.sort (JsVal.str "k") false]⟩ :=
  (c5_sort_directions_case_sensitive ⟨[]⟩ (JsVal.str "k") (JsVal.str "asc") "asc"
    (fun h => JsVal.noConfusion h) rfl).1 (Or.inr (Or.inl rfl))

/-- C6 counterexample: the claim says `where` with a mapping and a non-null
second argument fails with InvalidArgument and appends nothing; the code
performs no such validation and instead appends a `whereEquals` node whose
`prop` is the mapping. -/
theorem c6_counterexample_where_mapping_with_value :
    DbQuery.where_ ⟨[]⟩ (JsVal.obj [("a", JsVal.num 1)]) (JsVal.num 2) =
      ⟨[QueryPart.whereEquals (JsVal.obj [("a", JsVal.num 1)]) (JsVal.num 2)]⟩ := rfl

/-- C6 (amended): `where` with a mapping and a nullish (omitted) value
appends one `filter` node; every other argument combination — a scalar key
with any value, or a mapping together with a non-null value — appends one
`whereEquals` node carrying the first argument as the property; no call
fails. -/
theorem c6_where_dispatch (q : DbQuery) (key value : JsVal) :
    (isJsObject key = true → isNullish value = true →
        q.where_ key value = ⟨q.pts ++ [QueryPart.filter key]⟩) ∧
    (isNullish value = false →
        q.where_ key value = ⟨q.pts ++ [QueryPart.whereEquals key value]⟩) ∧
    (isJsObject key = false →
        q.where_ key value = ⟨q.pts ++ [QueryPart.whereEquals key value]⟩) := by
  refine ⟨fun h1 h2 => ?_, fun h3 => ?_, fun h4 => ?_⟩
  · simp [DbQuery.where_, h1, h2]
  · simp [DbQuery.where_, h3]
  · simp [DbQuery.where_, h4]

/-- Witness for C6 at concrete inputs: `where ({}, null)` appends one
`filter` node. -/
theorem c6_where_dispatch_witness :
    DbQuery.where_ ⟨[]⟩ (JsVal.obj []) JsVal.null =
      ⟨[QueryPart.filter (JsVal.obj [])]⟩ :=
  (c6_where_dispatch ⟨[]⟩ (JsVal.obj []) JsVal.null).1 rfl rfl
